import Mathlib

/-!
# AeroDyn Model Factory — verification of the specified core

Shallow embedding of the dependency-extraction, editing, draft, insight
and scenario logic of the AeroDyn Model Factory frontend, together with
spec-modelled fragments of the backend merge engine and expression
evaluator, and proofs of the specified properties.

Texts are embedded as `List Char`; JavaScript numbers as `ℚ` (the
properties proved do not depend on floating-point rounding).
-/

namespace AeroDyn

namespace EquationEditor

/-! ## Dependency extraction (`EquationEditor.tsx`, `dependencies` memo)

The component extracts stock references with the regex
`\b(S1|S2|...)\b` built by joining `availableStocks` with `|`, and
parameter references with the regex `p\[['"]([^'"]+)['"]\]`, both with
the global flag; each match list is deduplicated preserving first
occurrence (`[...new Set(...)]`).  The embedding reproduces the
JavaScript regex semantics for these two fixed pattern shapes:
a word boundary `\b` holds where exactly one adjacent character is a
word character; a global scan finds the leftmost match from the
current position, then resumes after it (advancing by one on an
empty match). -/

/-- ASCII word character, as JavaScript `\w` / `\b` classify (letters,
digits, underscore). -/
def isWordChar (c : Char) : Bool := c.isAlphanum || c = Char.ofNat 95

/-- Whether position `i` of `s` holds a word character (out of range
counts as non-word). -/
def wordAt (s : List Char) (i : Nat) : Bool :=
  (s[i]?.map isWordChar).getD false

/-- JavaScript `\b`: a word boundary at position `i` (between `s[i-1]`
and `s[i]`). -/
def boundaryAt (s : List Char) (i : Nat) : Bool :=
  (if i = 0 then false else wordAt s (i - 1)) != wordAt s i

/-- One attempt of `\b(a₁|a₂|…)\b` at position `i`: the first
alternative that is a prefix of `s` at `i` and is followed by a word
boundary, provided a boundary holds at `i`. -/
def matchStockAt (alts : List (List Char)) (s : List Char) (i : Nat) :
    Option (List Char) :=
  if boundaryAt s i then
    alts.find? (fun a => a.isPrefixOf (s.drop i) && boundaryAt s (i + a.length))
  else none

/-- Global scan of the stock pattern: leftmost match from `i`, resume
after the match (one past it when empty), collecting matched texts. -/
def scanStocksFrom (alts : List (List Char)) (s : List Char) :
    Nat → Nat → List (List Char)
  | 0, _ => []
  | fuel + 1, i =>
    if i ≤ s.length then
      match matchStockAt alts s i with
      | some m => m :: scanStocksFrom alts s fuel (i + max 1 m.length)
      | none => scanStocksFrom alts s fuel (i + 1)
    else []

/-- The alternatives of `new RegExp("\\b(" + availableStocks.join("|") + ")\\b")`:
joining the empty list yields the single empty alternative. -/
def altsOf (availableStocks : List (List Char)) : List (List Char) :=
  if availableStocks.isEmpty then [[]] else availableStocks

/-- The `localEquation.match(stockPattern)` with the global flag, as a list
of matched texts (empty when the JavaScript call returns `null`). -/
def stockMatches (localEquation : List Char)
    (availableStocks : List (List Char)) : List (List Char) :=
  scanStocksFrom (altsOf availableStocks) localEquation
    (localEquation.length + 2) 0

/-- First-occurrence deduplication, as `[...new Set(xs)]`. -/
def dedupFirstAux {α : Type} [DecidableEq α] (seen : List α) :
    List α → List α
  | [] => []
  | x :: xs =>
    if x ∈ seen then dedupFirstAux seen xs
    else x :: dedupFirstAux (x :: seen) xs

/-- The `[...new Set(xs)]`: keep the first occurrence of each element. -/
def dedupFirst {α : Type} [DecidableEq α] (l : List α) : List α :=
  dedupFirstAux [] l

/-- The single-quote character. -/
def quote1 : Char := Char.ofNat 39

/-- The double-quote character. -/
def quote2 : Char := Char.ofNat 34

/-- Left square bracket. -/
def lbrack : Char := Char.ofNat 91

/-- Right square bracket. -/
def rbrack : Char := Char.ofNat 93

/-- Membership in the character class `['"]`. -/
def isQuote (c : Char) : Bool := c = quote1 || c = quote2

/-- One attempt of `p\[['"]([^'"]+)['"]\]` at position `i`: on success,
the captured name and the total length of the match. -/
def paramMatchAt (s : List Char) (i : Nat) : Option (List Char × Nat) :=
  match s.drop i with
  | cp :: cb :: cq :: rest =>
    if cp = 'p' && cb = lbrack && isQuote cq then
      let run := rest.takeWhile (fun c => !isQuote c)
      match rest.drop run.length with
      | cq2 :: cr :: _ =>
        if !run.isEmpty && isQuote cq2 && cr = rbrack then
          some (run, run.length + 5)
        else none
      | _ => none
    else none
  | _ => none

/-- Global scan of the parameter pattern (`paramPattern.exec` loop),
collecting captured names in order. -/
def scanParamsFrom (s : List Char) : Nat → Nat → List (List Char)
  | 0, _ => []
  | fuel + 1, i =>
    if i ≤ s.length then
      match paramMatchAt s i with
      | some pr => pr.1 :: scanParamsFrom s fuel (i + max 1 pr.2)
      | none => scanParamsFrom s fuel (i + 1)
    else []

/-- All captures of the `while ((match = paramPattern.exec(...)))` loop. -/
def paramMatches (localEquation : List Char) : List (List Char) :=
  scanParamsFrom localEquation (localEquation.length + 2) 0

/-- The `EquationDependencies` of `EquationEditor.tsx`. -/
structure EquationDependencies where
  stocks : List (List Char)
  parameters : List (List Char)
  deriving DecidableEq, Repr

/-- The `dependencies` memo of `EquationEditor`: stock matches of the
joined-alternatives pattern, deduplicated, and parameter captures of
the bracket-lookup pattern, deduplicated.  `availableParameters` is
not consulted by the source computation. -/
def dependenciesOf (localEquation : List Char)
    (availableStocks : List (List Char)) : EquationDependencies :=
  { stocks := dedupFirst (stockMatches localEquation availableStocks),
    parameters := dedupFirst (paramMatches localEquation) }

/-- The `dependencies` memo as seen from the component's props: it
closes over `localEquation` and `availableStocks` only — the
`availableParameters` prop does not enter the computation. -/
def dependenciesMemo (localEquation : List Char)
    (availableStocks availableParameters : List (List Char)) :
    EquationDependencies :=
  dependenciesOf localEquation availableStocks

/-! ### Spec-side notions for the extraction claims -/

/-- The token `a` occurs in `s` at position `i` delimited by word boundaries on
both sides (a standalone token occurrence). -/
def standaloneAt (a s : List Char) (i : Nat) : Bool :=
  boundaryAt s i && a.isPrefixOf (s.drop i) && boundaryAt s (i + a.length)

/-- The token `a` is textually present in `s` as a standalone (word-bounded)
token. -/
def occursStandalone (a s : List Char) : Bool :=
  (List.range (s.length + 1)).any (fun i => standaloneAt a s i)

/-- A non-empty token made only of word characters (the shape of the
stock symbols the editor is given). -/
def wordish (a : List Char) : Prop :=
  a ≠ [] ∧ ∀ c ∈ a, isWordChar c = true

/-- The name given as `name` is textually referenced in `s` at position `i` in the
namespaced bracket-lookup form `p['name']` / `p["name"]`. -/
def paramRefAt (name s : List Char) (i : Nat) : Prop :=
  name ≠ [] ∧ (∀ c ∈ name, isQuote c = false) ∧
  ∃ q1 q2, isQuote q1 = true ∧ isQuote q2 = true ∧
    ('p' :: lbrack :: q1 :: (name ++ [q2, rbrack])).isPrefixOf (s.drop i)

/-- The concrete expression text `p['x']`. -/
def cexPX : List Char := ['p', lbrack, quote1, 'x', quote1, rbrack]

/-- The concrete expression text `p['foo']`. -/
def cexPFoo : List Char :=
  ['p', lbrack, quote1, 'f', 'o', 'o', quote1, rbrack]

/-- The concrete expression text `p['kT']`. -/
def cexPkT : List Char := ['p', lbrack, quote1, 'k', 'T', quote1, rbrack]

/-- The concrete expression text `p['xp[']z']`, in which two
occurrences of the bracket pattern overlap. -/
def cexPNested : List Char :=
  ['p', lbrack, quote1, 'x', 'p', lbrack, quote1, rbrack, 'z', quote1, rbrack]

/-- The concrete expression text `0.6*S`. -/
def sampleExpr : List Char := ['0', '.', '6', '*', 'S']

end EquationEditor

namespace DraftsApi

/-! ## Draft API client (`api/drafts.ts`)

The client throws `Error("Failed to …: " + statusText)` exactly when
`response.ok` is false, and returns normally otherwise.  The backend
draft store itself is not part of the frontend sources; its removal
semantics is modelled from the spec below. -/

/-- The `PatchChange` of `api/drafts.ts` (payload fields beyond the claim
are kept abstract as the operation tag and rationale). -/
structure PatchChange where
  op : String
  symbol : Option String
  reason : Option String
  deriving DecidableEq, Repr

/-- The `Draft` of `api/drafts.ts`: identifier plus ordered change list. -/
structure Draft where
  draft_id : String
  changes : List PatchChange
  deriving DecidableEq, Repr

/-- The observable part of a `fetch` response used by the client. -/
structure FetchResponse where
  ok : Bool
  statusText : String
  deriving DecidableEq, Repr

/-- The `removeChangeFromDraft` of `api/drafts.ts`: returns normally when
`response.ok`, otherwise throws a structured error. -/
def removeChangeFromDraft (response : FetchResponse) : Except String Unit :=
  if response.ok then Except.ok ()
  else Except.error ("Failed to remove change: " ++ response.statusText)

/-- Modelled from the spec: `remove_change(draft_id, index) -> ok|error`
— the backend draft store (not under the frontend sources) removes the
change at `index` from the draft's ordered list prior to merge,
failing when the index does not name a change. -/
def removeChange (d : Draft) (index : Nat) : Option Draft :=
  if index < d.changes.length then
    some { d with changes := d.changes.eraseIdx index }
  else none

/-- Modelled from the spec: the HTTP response the backend gives the
client for a removal request — success exactly when the removal
succeeds. -/
def backendRemoveResponse (d : Draft) (index : Nat) : FetchResponse :=
  if index < d.changes.length then { ok := true, statusText := "OK" }
  else { ok := false, statusText := "Not Found" }

/-- A concrete one-change draft. -/
def sampleDraft : Draft :=
  { draft_id := "d1",
    changes := [{ op := "update_state", symbol := some "T",
                  reason := some "Node repositioned" }] }

/-- A concrete freshly created (empty) draft. -/
def emptyDraft : Draft := { draft_id := "d2", changes := [] }

end DraftsApi

namespace GraphEditor

/-! ## Draft state flow (`GraphEditor.tsx`) -/

open DraftsApi

/-- The `DraftState` of `GraphEditor.tsx`. -/
structure DraftState where
  active : Bool
  draft : Option Draft
  changes : List PatchChange
  deriving DecidableEq, Repr

/-- The editor state touched by `addChange`: the draft state and the
undo/redo stacks. -/
structure EditorState where
  draftState : DraftState
  undoStack : List PatchChange
  redoStack : List PatchChange
  deriving DecidableEq, Repr

/-- The `startDraft`: on a successful `createDraft` call (`created = some d`)
the draft state becomes active with the fresh draft and an empty change
list; a failed call only logs and leaves the state unchanged. -/
def startDraft (st : EditorState) (created : Option Draft) : EditorState :=
  match created with
  | some d => { st with draftState := { active := true, draft := some d, changes := [] } }
  | none => st

/-- The `addChange` of `GraphEditor.tsx`.  `created` is the draft a
`createDraft` call would return (`none` when it throws); `backendOk`
tells whether `addChangeToDraft` succeeds.  When no draft is active the
function starts a draft and returns without appending the triggering
change. -/
def addChange (st : EditorState) (change : PatchChange)
    (created : Option Draft) (backendOk : Bool) : EditorState :=
  match st.draftState.draft with
  | none => startDraft st created
  | some _ =>
    if backendOk then
      { st with
        draftState := { st.draftState with changes := st.draftState.changes ++ [change] },
        undoStack := st.undoStack ++ [change],
        redoStack := [] }
    else st

/-- The editor state before any draft exists. -/
def initialEditorState : EditorState :=
  { draftState := { active := false, draft := none, changes := [] },
    undoStack := [], redoStack := [] }

/-- A concrete change operation produced by an edit. -/
def sampleChange : DraftsApi.PatchChange :=
  { op := "update_state", symbol := some "T", reason := some "Node properties updated" }

end GraphEditor

namespace NodeEditModal

/-! ## Node edit modal (`NodeEditModal`, unnamed part_005) -/

/-- The `updates` payload `handleSave` passes to `onSave`. -/
structure SavePayload where
  label : String
  description : String
  business_meaning : String
  initial : ℚ
  category : String
  deriving DecidableEq, Repr

/-- Outcome of one `handleSave` run: either validation errors are
reported and `onSave` is not invoked, or `onSave` is invoked with the
entered values. -/
inductive SaveOutcome
  | rejected (errors : List String)
  | saved (nodeId : String) (updates : SavePayload)
  deriving DecidableEq, Repr

/-- The `newErrors` list `handleSave` builds: name first, bound second,
exactly as the two `push` calls. -/
def validationErrors (name : String) (initial : ℚ) : List String :=
  (if name.trim = "" then ["Name is required"] else []) ++
  (if initial < 0 ∨ initial > 1 then ["Initial value must be between 0 and 1"] else [])

/-- The `handleSave` of `NodeEditModal`: reject when `newErrors` is
non-empty, otherwise invoke `onSave` with the entered values. -/
def handleSave (nodeId name description businessMeaning : String)
    (initial : ℚ) (category : String) : SaveOutcome :=
  let newErrors := validationErrors name initial
  if newErrors.length > 0 then SaveOutcome.rejected newErrors
  else SaveOutcome.saved nodeId
    { label := name, description := description,
      business_meaning := businessMeaning, initial := initial,
      category := category }

end NodeEditModal

namespace InsightEngine

/-! ## Insight generation (`insightEngine`, unnamed part_003)

JavaScript out-of-range array access yields `undefined`, and every
comparison with `undefined` (or `NaN`) is false; the embedding models
an accessed element as `Option ℚ` and those comparisons as false on
`none`.  `array[length - 1]` on an empty array is `array[-1]`, i.e.
`undefined`. -/

/-- The state trajectories `generateInsights` reads. -/
structure SimStates where
  T : List ℚ
  S : List ℚ
  D : List ℚ
  X : List ℚ
  E : List ℚ
  V : List ℚ
  L : List ℚ
  R : List ℚ

/-- The `SimulationResult` fields used by the insight engine. -/
structure SimulationResult where
  t : List ℚ
  states : SimStates

inductive InsightType
  | warning | success | info
  deriving DecidableEq, Repr

inductive Impact
  | high | medium | low
  deriving DecidableEq, Repr

/-- The `Insight` of the insight engine. -/
structure Insight where
  type : InsightType
  title : String
  description : String
  impact : Impact

/-- The index `t.length - 1` as a JavaScript index: `-1` (out of range, hence
`undefined` on access) when the array is empty. -/
def idxLast (n : Nat) : Option Nat :=
  if n = 0 then none else some (n - 1)

/-- Array access at a possibly out-of-range index. -/
def getAt (l : List ℚ) (i : Option Nat) : Option ℚ :=
  match i with
  | some k => l[k]?
  | none => none

/-- JavaScript `a > c` where `a` may be `undefined`. -/
def jsGt (a : Option ℚ) (c : ℚ) : Bool :=
  match a with
  | some v => v > c
  | none => false

/-- JavaScript `a < c` where `a` may be `undefined`. -/
def jsLt (a : Option ℚ) (c : ℚ) : Bool :=
  match a with
  | some v => v < c
  | none => false

/-- JavaScript `a < b` where either side may be `undefined`/`NaN`. -/
def jsLtO (a b : Option ℚ) : Bool :=
  match a, b with
  | some x, some y => x < y
  | _, _ => false

/-- JavaScript `a > b` where either side may be `undefined`/`NaN`. -/
def jsGtO (a b : Option ℚ) : Bool :=
  match a, b with
  | some x, some y => x > y
  | _, _ => false

/-- The average `(a + b + c) / 3` propagating `undefined`/`NaN`. -/
def avg3 (a b c : Option ℚ) : Option ℚ :=
  match a, b, c with
  | some x, some y, some z => some ((x + y + z) / 3)
  | _, _, _ => none

/-- Scalar multiple propagating `undefined`/`NaN`. -/
def optMul (a : Option ℚ) (c : ℚ) : Option ℚ := a.map (fun v => v * c)

/-- The rendering `(q * 100).toFixed(0)` as the rounded percentage rendering. -/
def fmtPct (a : Option ℚ) : String :=
  match a with
  | some v => toString (round (v * 100))
  | none => "NaN"

/-- The `generateInsights` of the insight engine: the six checks in source
order, truncated to the first three insights; the empty list for a
null result. -/
def generateInsights (result : Option SimulationResult) (_scenarioName : String) :
    List Insight :=
  match result with
  | none => []
  | some r =>
    let lastIdx := idxLast r.t.length
    let incidentEnd := getAt r.states.X lastIdx
    let trustEnd := getAt r.states.L lastIdx
    let trustStart := getAt r.states.L (some 0)
    let vvEnd := getAt r.states.V lastIdx
    let targetingEnd := getAt r.states.T lastIdx
    let capabilityEnd :=
      avg3 (getAt r.states.T lastIdx) (getAt r.states.S lastIdx) (getAt r.states.D lastIdx)
    let capabilityStart :=
      avg3 (getAt r.states.T (some 0)) (getAt r.states.S (some 0)) (getAt r.states.D (some 0))
    let ethicsEnd := getAt r.states.E lastIdx
    let resourceEnd := getAt r.states.R lastIdx
    let insights : List Insight :=
      (if jsGt incidentEnd (6/10) then
        [{ type := InsightType.warning, title := "High Incident Risk",
           description := "This scenario results in " ++ fmtPct incidentEnd ++
             "% incident accumulation, which could damage trust and trigger regulatory scrutiny.",
           impact := Impact.high }] else []) ++
      (if jsLtO trustEnd (optMul trustStart (7/10)) then
        [{ type := InsightType.warning, title := "Trust Erosion",
           description := "Legitimacy drops, potentially limiting future procurement and political support.",
           impact := Impact.high }] else []) ++
      (if jsGt targetingEnd (6/10) && jsLt vvEnd (4/10) then
        [{ type := InsightType.warning, title := "V&V Investment Gap",
           description := "High targeting capability (" ++ fmtPct targetingEnd ++
             "%) without adequate V&V maturity (" ++ fmtPct vvEnd ++
             "%) increases incident probability.",
           impact := Impact.high }] else []) ++
      (if jsGtO capabilityEnd (optMul capabilityStart (12/10)) && jsLt incidentEnd (4/10) then
        [{ type := InsightType.success, title := "Sustainable Growth",
           description := "Capability increases while maintaining low incident risk. This is a balanced approach.",
           impact := Impact.high }] else []) ++
      (if jsGt ethicsEnd (7/10) && jsGt trustEnd (7/10) then
        [{ type := InsightType.success, title := "Strong Compliance Posture",
           description := "High ethics compliance (" ++ fmtPct ethicsEnd ++
             "%) builds trust (" ++ fmtPct trustEnd ++ "%), enabling sustained procurement.",
           impact := Impact.medium }] else []) ++
      (if jsLt resourceEnd (4/10) then
        [{ type := InsightType.warning, title := "Resource Constraints",
           description := "Resource capacity drops to " ++ fmtPct resourceEnd ++
             "%, limiting ability to invest in capabilities or compliance.",
           impact := Impact.medium }] else [])
    insights.take 3

end InsightEngine

namespace AppMain

/-! ## Scenario selection (`App.loadScenarioValues`, unnamed part_011)

JavaScript records are embedded as association lists with first-match
lookup; `{ ...defaults, ...overrides }` assigns the override value when
the key is overridden and the default otherwise. -/

/-- Lookup in a JavaScript record. -/
def recordGet {α : Type} (r : List (String × α)) (k : String) : Option α :=
  (r.find? (fun kv => kv.1 == k)).map (fun kv => kv.2)

/-- The value map denoted by `{ ...base, ...over }`: the later spread
wins. -/
def spread {α : Type} (base over : List (String × α)) (k : String) : Option α :=
  match recordGet over k with
  | some v => some v
  | none => recordGet base k

/-- The parameter configuration fields `loadScenarioValues` reads. -/
structure ParamCfg where
  value : ℚ

/-- The state configuration fields `loadScenarioValues` reads. -/
structure StateCfg where
  initial : ℚ

/-- The `Scenario` of the frontend API. -/
structure Scenario where
  param_overrides : List (String × ℚ)
  initial_overrides : List (String × ℚ)

/-- The `FullConfig` fields `loadScenarioValues` reads. -/
structure FullConfig where
  states : List (String × StateCfg)
  parameters : List (String × ParamCfg)

/-- The `defaultParams` record built from `cfg.parameters`. -/
def defaultParams (cfg : FullConfig) : List (String × ℚ) :=
  cfg.parameters.map (fun kv => (kv.1, kv.2.value))

/-- The `defaultInitials` record built from `cfg.states`. -/
def defaultInitials (cfg : FullConfig) : List (String × ℚ) :=
  cfg.states.map (fun kv => (kv.1, kv.2.initial))

/-- The `loadScenarioValues`: the pair of value maps passed to
`setParamValues` and `setInitialValues`. -/
def loadScenarioValues (scenario : Scenario) (cfg : FullConfig) :
    (String → Option ℚ) × (String → Option ℚ) :=
  (spread (defaultParams cfg) scenario.param_overrides,
   spread (defaultInitials cfg) scenario.initial_overrides)

/-- A concrete configuration with one parameter and one state. -/
def sampleConfig : FullConfig :=
  { states := [("T", { initial := 3/10 })],
    parameters := [("kT", { value := 7/10 })] }

/-- A concrete scenario overriding the parameter only. -/
def sampleScenario : Scenario :=
  { param_overrides := [("kT", 9/10)], initial_overrides := [] }

end AppMain

namespace MergeEngine

/-! ## Merge engine

Modelled from the spec: the backend patch/merge engine (`merge(base_model,
draft, mode)`, section 4.3) is not under the frontend sources; this
embedding follows the spec's words — operations applied strictly in list
order against the current working state, per-operation failures recorded
as indexed skips with a structured reason while the merge continues,
cascading `remove_state`, and a whole-model validation of the result.
The state/parameter/relation/equation operations needed by the claims
are modelled; payloads carry the fields the checks consult. -/

/-- A state variable of the model document. -/
structure StateVar where
  symbol : String
  name : String
  initial : ℚ
  deriving DecidableEq, Repr

/-- A parameter of the model document. -/
structure Param where
  name : String
  value : ℚ
  deriving DecidableEq, Repr

/-- A causal relation; `source` may be absent for exogenous edges. -/
structure Relation where
  id : String
  source : Option String
  target : String
  deriving DecidableEq, Repr

/-- An equation keyed by its governing state symbol, with its derived
dependency set. -/
structure Equation where
  symbol : String
  deps : List String
  deriving DecidableEq, Repr

/-- The model document. -/
structure Model where
  states : List StateVar
  parameters : List Param
  relations : List Relation
  equations : List Equation
  deriving DecidableEq, Repr

/-- Whether a state with the given symbol exists. -/
def stateExists (m : Model) (sym : String) : Bool :=
  m.states.any (fun s => s.symbol == sym)

/-- Whether a parameter with the given name exists. -/
def paramExists (m : Model) (n : String) : Bool :=
  m.parameters.any (fun p => p.name == n)

/-- Whether a relation with the given id exists. -/
def relationExists (m : Model) (i : String) : Bool :=
  m.relations.any (fun r => r.id == i)

/-- An optional relation source resolves when absent or naming an
existing state. -/
def sourceRefOk (m : Model) : Option String → Bool
  | none => true
  | some s => stateExists m s

/-- The change operations of a draft (the kinds the claims exercise). -/
inductive ChangeOp
  | addState (s : StateVar)
  | updateState (symbol : String) (value : ℚ)
  | removeState (symbol : String)
  | addParameter (p : Param)
  | updateParameter (name : String) (value : ℚ)
  | removeParameter (name : String)
  | addRelation (r : Relation)
  | removeRelation (id : String)
  | addEquation (e : Equation)
  deriving DecidableEq, Repr

/-- Apply one operation to the working document: duplicate adds,
missing update/remove targets, dangling relation endpoints and unknown
equation dependencies are structured per-operation errors. -/
def applyOp (m : Model) : ChangeOp → Except String Model
  | ChangeOp.addState s =>
    if stateExists m s.symbol then Except.error ("duplicate state " ++ s.symbol)
    else Except.ok { m with states := m.states ++ [s] }
  | ChangeOp.updateState sym v =>
    if stateExists m sym then
      Except.ok { m with
        states := m.states.map
          (fun s => if s.symbol == sym then { s with initial := v } else s) }
    else Except.error ("missing state " ++ sym)
  | ChangeOp.removeState sym =>
    if stateExists m sym then
      Except.ok { m with
        states := m.states.filter (fun s => s.symbol != sym),
        relations := m.relations.filter
          (fun r => !(r.source == some sym) && r.target != sym),
        equations := m.equations.filter (fun e => e.symbol != sym) }
    else Except.error ("missing state " ++ sym)
  | ChangeOp.addParameter p =>
    if paramExists m p.name then Except.error ("duplicate parameter " ++ p.name)
    else Except.ok { m with parameters := m.parameters ++ [p] }
  | ChangeOp.updateParameter n v =>
    if paramExists m n then
      Except.ok { m with
        parameters := m.parameters.map
          (fun p => if p.name == n then { p with value := v } else p) }
    else Except.error ("missing parameter " ++ n)
  | ChangeOp.removeParameter n =>
    if paramExists m n then
      Except.ok { m with parameters := m.parameters.filter (fun p => p.name != n) }
    else Except.error ("missing parameter " ++ n)
  | ChangeOp.addRelation r =>
    if relationExists m r.id then Except.error ("duplicate relation " ++ r.id)
    else if !(sourceRefOk m r.source && stateExists m r.target) then
      Except.error ("relation references nonexistent state")
    else Except.ok { m with relations := m.relations ++ [r] }
  | ChangeOp.removeRelation i =>
    if relationExists m i then
      Except.ok { m with relations := m.relations.filter (fun r => r.id != i) }
    else Except.error ("missing relation " ++ i)
  | ChangeOp.addEquation e =>
    if e.deps.all (fun d => stateExists m d || paramExists m d) then
      Except.ok { m with equations :=
        m.equations.filter (fun q => q.symbol != e.symbol) ++ [e] }
    else Except.error ("equation references unknown symbol")

/-- Every relation endpoint names an existing state. -/
def relationEndpointsOk (m : Model) : Bool :=
  m.relations.all (fun r => sourceRefOk m r.source && stateExists m r.target)

/-- Every derived equation dependency resolves to a state or
parameter. -/
def equationDepsOk (m : Model) : Bool :=
  m.equations.all (fun e => e.deps.all (fun d => stateExists m d || paramExists m d))

/-- The whole-model validator: dangling references, unresolved
dependencies and duplicate identifiers. -/
def modelValid (m : Model) : Bool :=
  relationEndpointsOk m && equationDepsOk m &&
  decide ((m.states.map (fun s => s.symbol)).Nodup) &&
  decide ((m.parameters.map (fun p => p.name)).Nodup) &&
  decide ((m.relations.map (fun r => r.id)).Nodup)

/-- The `MergeResult` of the merge contract. -/
structure MergeResult where
  effective_model : Model
  applied_changes : Nat
  skipped : List (Nat × String)
  valid : Bool
  deriving DecidableEq, Repr

/-- Apply the draft's operations in order from index `idx`: failures
become indexed skips and the merge continues. -/
def applyOps (m : Model) (ops : List ChangeOp) (idx : Nat) :
    Model × Nat × List (Nat × String) :=
  match ops with
  | [] => (m, 0, [])
  | op :: rest =>
    match applyOp m op with
    | Except.ok m2 =>
      let r := applyOps m2 rest (idx + 1)
      (r.1, r.2.1 + 1, r.2.2)
    | Except.error e =>
      let r := applyOps m rest (idx + 1)
      (r.1, r.2.1, (idx, e) :: r.2.2)

/-- The contract `merge(base, draft)`: apply all operations, then validate the
working document. -/
def merge (base : Model) (changes : List ChangeOp) : MergeResult :=
  let r := applyOps base changes 0
  { effective_model := r.1, applied_changes := r.2.1,
    skipped := r.2.2, valid := modelValid r.1 }

/-- The empty base model. -/
def emptyModel : Model :=
  { states := [], parameters := [], relations := [], equations := [] }

/-- A concrete state variable. -/
def stT : StateVar := { symbol := "T", name := "Targeting", initial := 3/10 }

/-- A concrete parameter. -/
def pkT : Param := { name := "kT", value := 7/10 }

/-- The model after adding `stT` to the empty base. -/
def modelT : Model :=
  { states := [stT], parameters := [], relations := [], equations := [] }

/-- The model after additionally adding `pkT`. -/
def modelTkT : Model :=
  { states := [stT], parameters := [pkT], relations := [], equations := [] }

end MergeEngine

namespace Evaluator

/-! ## Expression evaluator

Modelled from the spec: the backend expression evaluator
(`evaluate(validated_expr, state_bindings, parameter_bindings)`,
section 4.2) is not under the frontend sources; this embedding follows
the spec's words — recursive reduction, `UnboundSymbol` on a missing
binding, `DomainError` on division by exact zero, and the documented
exact semantics of the whitelisted functions.  The rational-exact
whitelisted functions (`clamp`, `min`, `max`, `abs`, `step`) are
modelled; the transcendental ones play no role in the claims. -/

/-- The evaluation errors of the spec's taxonomy. -/
inductive EvaluationError
  | UnboundSymbol (name : String)
  | DomainError
  deriving DecidableEq, Repr

/-- Validated expressions: literals, state identifiers, namespaced
parameter references, arithmetic, and whitelisted calls. -/
inductive Expr
  | num (v : ℚ)
  | ident (name : String)
  | paramRef (name : String)
  | neg (a : Expr)
  | add (a b : Expr)
  | sub (a b : Expr)
  | mul (a b : Expr)
  | div (a b : Expr)
  | clamp (x lo hi : Expr)
  | minF (a b : Expr)
  | maxF (a b : Expr)
  | absF (a : Expr)
  | stepF (x t : Expr)
  deriving DecidableEq, Repr

/-- The contract `evaluate(validated_expr, state_bindings, parameter_bindings)`:
deterministic recursive reduction with the documented function
semantics (`clamp(x,lo,hi) = min(max(x,lo),hi)`;
`step(x,t) = 1 if x >= t else 0`). -/
def evaluate (stateBindings parameterBindings : String → Option ℚ) :
    Expr → Except EvaluationError ℚ
  | Expr.num v => Except.ok v
  | Expr.ident n =>
    match stateBindings n with
    | some v => Except.ok v
    | none => Except.error (EvaluationError.UnboundSymbol n)
  | Expr.paramRef n =>
    match parameterBindings n with
    | some v => Except.ok v
    | none => Except.error (EvaluationError.UnboundSymbol n)
  | Expr.neg a => do
    let x ← evaluate stateBindings parameterBindings a
    pure (-x)
  | Expr.add a b => do
    let x ← evaluate stateBindings parameterBindings a
    let y ← evaluate stateBindings parameterBindings b
    pure (x + y)
  | Expr.sub a b => do
    let x ← evaluate stateBindings parameterBindings a
    let y ← evaluate stateBindings parameterBindings b
    pure (x - y)
  | Expr.mul a b => do
    let x ← evaluate stateBindings parameterBindings a
    let y ← evaluate stateBindings parameterBindings b
    pure (x * y)
  | Expr.div a b => do
    let x ← evaluate stateBindings parameterBindings a
    let y ← evaluate stateBindings parameterBindings b
    if y = 0 then Except.error EvaluationError.DomainError else pure (x / y)
  | Expr.clamp x lo hi => do
    let xv ← evaluate stateBindings parameterBindings x
    let lov ← evaluate stateBindings parameterBindings lo
    let hiv ← evaluate stateBindings parameterBindings hi
    pure (min (max xv lov) hiv)
  | Expr.minF a b => do
    let x ← evaluate stateBindings parameterBindings a
    let y ← evaluate stateBindings parameterBindings b
    pure (min x y)
  | Expr.maxF a b => do
    let x ← evaluate stateBindings parameterBindings a
    let y ← evaluate stateBindings parameterBindings b
    pure (max x y)
  | Expr.absF a => do
    let x ← evaluate stateBindings parameterBindings a
    pure |x|
  | Expr.stepF x t => do
    let xv ← evaluate stateBindings parameterBindings x
    let tv ← evaluate stateBindings parameterBindings t
    pure (if xv ≥ tv then 1 else 0)

/-- A binding environment holding only `x`. -/
def xBinding (v : ℚ) : String → Option ℚ :=
  fun s => if s = "x" then some v else none

/-- The empty binding environment. -/
def emptyBindings : String → Option ℚ := fun _ => none

/-- The round-trip of the spec: `clamp(x, 0, 1)` evaluated at
`x ∈ {-1, 0, 0.5, 1, 2}`. -/
def clampRoundTrip : List (Except EvaluationError ℚ) :=
  [(-1 : ℚ), 0, 1/2, 1, 2].map (fun v =>
    evaluate (xBinding v) emptyBindings
      (Expr.clamp (Expr.ident "x") (Expr.num 0) (Expr.num 1)))

end Evaluator

/-! # Theorems -/

theorem except_ok_bind {ε α β : Type} (a : α) (f : α → Except ε β) :
    ((Except.ok a : Except ε α) >>= f) = f a := rfl

theorem except_pure_eq {ε α : Type} (a : α) :
    (pure a : Except ε α) = Except.ok a := rfl

namespace EquationEditor

theorem wordAt_of_prefix {a s : List Char} {i k : Nat}
    (hp : a <+: s.drop i) (hk : k < a.length) :
    wordAt s (i + k) = isWordChar (a.get ⟨k, hk⟩) := by
  obtain ⟨t, ht⟩ := hp
  have hg : s[i + k]? = some (a.get ⟨k, hk⟩) := by
    rw [← List.getElem?_drop, ← ht, List.getElem?_append_left hk,
      List.getElem?_eq_getElem hk]
    rfl
  unfold wordAt
  rw [hg]
  rfl

theorem wordish_get {a : List Char} (ha : wordish a) {k : Nat} (hk : k < a.length) :
    isWordChar (a.get ⟨k, hk⟩) = true :=
  ha.2 _ (List.get_mem a k hk)

theorem boundaryAt_false_inside {a s : List Char} {i m : Nat}
    (ha : wordish a) (hp : a <+: s.drop i)
    (h1 : i < m) (h2 : m < i + a.length) :
    boundaryAt s m = false := by
  have hm0 : m ≠ 0 := by omega
  have hk1 : m - i < a.length := by omega
  have hk2 : m - 1 - i < a.length := by omega
  have hw1 : wordAt s m = true := by
    have h := wordAt_of_prefix hp hk1
    rw [show i + (m - i) = m by omega] at h
    rw [h]
    exact wordish_get ha hk1
  have hw2 : wordAt s (m - 1) = true := by
    have h := wordAt_of_prefix hp hk2
    rw [show i + (m - 1 - i) = m - 1 by omega] at h
    rw [h]
    exact wordish_get ha hk2
  unfold boundaryAt
  rw [if_neg hm0, hw1, hw2]
  rfl

theorem standaloneAt_eq_true_iff {a s : List Char} {i : Nat} :
    standaloneAt a s i = true ↔
      boundaryAt s i = true ∧ a <+: s.drop i ∧ boundaryAt s (i + a.length) = true := by
  unfold standaloneAt
  simp [Bool.and_eq_true, and_assoc]

theorem standaloneAt_unique {a b s : List Char} {i : Nat}
    (ha : wordish a) (hb : wordish b)
    (hsa : standaloneAt a s i = true) (hsb : standaloneAt b s i = true) :
    a = b := by
  obtain ⟨-, hpa, hba⟩ := standaloneAt_eq_true_iff.mp hsa
  obtain ⟨-, hpb, hbb⟩ := standaloneAt_eq_true_iff.mp hsb
  have hlen : 0 < a.length := List.length_pos.mpr ha.1
  have hlenb : 0 < b.length := List.length_pos.mpr hb.1
  rcases List.prefix_or_prefix_of_prefix hpa hpb with h | h
  · rcases Nat.lt_or_ge a.length b.length with hlt | hge
    · exfalso
      have hf : boundaryAt s (i + a.length) = false :=
        boundaryAt_false_inside hb hpb (by omega) (by omega)
      rw [hf] at hba
      exact Bool.false_ne_true hba
    · exact h.eq_of_length_le hge
  · rcases Nat.lt_or_ge b.length a.length with hlt | hge
    · exfalso
      have hf : boundaryAt s (i + b.length) = false :=
        boundaryAt_false_inside ha hpa (by omega) (by omega)
      rw [hf] at hbb
      exact Bool.false_ne_true hbb
    · exact (h.eq_of_length_le hge).symm

theorem matchStockAt_eq_some_iff {alts : List (List Char)} {s : List Char}
    {i : Nat} {a : List Char} (halts : ∀ x ∈ alts, wordish x) :
    matchStockAt alts s i = some a ↔ a ∈ alts ∧ standaloneAt a s i = true := by
  unfold matchStockAt
  cases hB : boundaryAt s i with
  | false =>
    simp only [Bool.false_eq_true, if_false]
    constructor
    · intro h
      exact absurd h (Option.noConfusion)
    · rintro ⟨-, hsa⟩
      have := (standaloneAt_eq_true_iff.mp hsa).1
      rw [hB] at this
      exact absurd this Bool.false_ne_true
  | true =>
    simp only [if_true]
    constructor
    · intro h
      have hpa := List.find?_some h
      have hma := List.mem_of_find?_eq_some h
      rw [Bool.and_eq_true, List.isPrefixOf_iff_prefix] at hpa
      exact ⟨hma, standaloneAt_eq_true_iff.mpr ⟨hB, hpa.1, hpa.2⟩⟩
    · rintro ⟨hma, hsa⟩
      obtain ⟨-, hp, hb⟩ := standaloneAt_eq_true_iff.mp hsa
      have hpred : (a.isPrefixOf (s.drop i) && boundaryAt s (i + a.length)) = true := by
        rw [Bool.and_eq_true, List.isPrefixOf_iff_prefix]
        exact ⟨hp, hb⟩
      have hsome : (alts.find? fun x => x.isPrefixOf (s.drop i) &&
          boundaryAt s (i + x.length)).isSome := by
        rw [List.find?_isSome]
        exact ⟨a, hma, hpred⟩
      obtain ⟨b, hb2⟩ := Option.isSome_iff_exists.mp hsome
      have hpb := List.find?_some hb2
      have hmb := List.mem_of_find?_eq_some hb2
      rw [Bool.and_eq_true, List.isPrefixOf_iff_prefix] at hpb
      have hsb : standaloneAt b s i = true :=
        standaloneAt_eq_true_iff.mpr ⟨hB, hpb.1, hpb.2⟩
      rw [hb2]
      exact congrArg some (standaloneAt_unique (halts b hmb) (halts a hma) hsb hsa)

theorem standaloneAt_le_length {a s : List Char} {j : Nat}
    (ha : wordish a) (h : standaloneAt a s j = true) :
    j + a.length ≤ s.length := by
  obtain ⟨-, hp, -⟩ := standaloneAt_eq_true_iff.mp h
  have hle := hp.length_le
  rw [List.length_drop] at hle
  have hj : j ≤ s.length := by
    by_contra hc
    push_neg at hc
    have hnil : s.drop j = [] := List.drop_eq_nil_of_le (le_of_lt hc)
    rw [hnil, List.prefix_nil] at hp
    exact ha.1 hp
  omega

theorem scanStocksFrom_mem {alts : List (List Char)} {s : List Char}
    (halts : ∀ x ∈ alts, wordish x) (a : List Char) :
    ∀ (fuel i : Nat), s.length + 1 ≤ i + fuel →
      (a ∈ scanStocksFrom alts s fuel i ↔
        ∃ j, i ≤ j ∧ a ∈ alts ∧ standaloneAt a s j = true) := by
  intro fuel
  induction fuel with
  | zero =>
    intro i hfi
    simp only [scanStocksFrom, List.not_mem_nil, false_iff, not_exists]
    rintro j ⟨hij, hma, hsa⟩
    have h1 := standaloneAt_le_length (halts a hma) hsa
    have h2 : 0 < a.length := List.length_pos.mpr (halts a hma).1
    omega
  | succ fuel ih =>
    intro i hfi
    rw [scanStocksFrom]
    by_cases hi : i ≤ s.length
    · rw [if_pos hi]
      cases hm : matchStockAt alts s i with
      | none =>
        rw [ih (i + 1) (by omega)]
        constructor
        · rintro ⟨j, hij, hma, hsa⟩
          exact ⟨j, by omega, hma, hsa⟩
        · rintro ⟨j, hij, hma, hsa⟩
          refine ⟨j, ?_, hma, hsa⟩
          rcases Nat.eq_or_lt_of_le hij with rfl | h
          · exfalso
            have := (matchStockAt_eq_some_iff halts).mpr ⟨hma, hsa⟩
            rw [hm] at this
            exact Option.noConfusion this
          · omega
      | some m =>
        obtain ⟨hmm, hms⟩ := (matchStockAt_eq_some_iff halts).mp hm
        have hmw := halts m hmm
        have hm1 : 0 < m.length := List.length_pos.mpr hmw.1
        have hmax : max 1 m.length = m.length := by omega
        show a ∈ m :: scanStocksFrom alts s fuel (i + max 1 m.length) ↔ _
        rw [hmax]
        simp only [List.mem_cons]
        rw [ih (i + m.length) (by omega)]
        constructor
        · rintro (rfl | ⟨j, hij, hma, hsa⟩)
          · exact ⟨i, le_refl i, hmm, hms⟩
          · exact ⟨j, by omega, hma, hsa⟩
        · rintro ⟨j, hij, hma, hsa⟩
          rcases Nat.lt_or_ge j (i + m.length) with hlt | hge
          · rcases Nat.eq_or_lt_of_le hij with rfl | hgt
            · exact Or.inl (standaloneAt_unique (halts a hma) hmw hsa hms)
            · exfalso
              have hpm : m <+: s.drop i := (standaloneAt_eq_true_iff.mp hms).2.1
              have hf : boundaryAt s j = false :=
                boundaryAt_false_inside hmw hpm hgt hlt
              have hbt := (standaloneAt_eq_true_iff.mp hsa).1
              rw [hf] at hbt
              exact Bool.false_ne_true hbt
          · exact Or.inr ⟨j, hge, hma, hsa⟩
    · rw [if_neg hi]
      simp only [List.not_mem_nil, false_iff, not_exists]
      rintro j ⟨hij, hma, hsa⟩
      have h1 := standaloneAt_le_length (halts a hma) hsa
      have h2 : 0 < a.length := List.length_pos.mpr (halts a hma).1
      omega

theorem mem_dedupFirstAux {α : Type} [DecidableEq α] (a : α) :
    ∀ (l seen : List α), a ∈ dedupFirstAux seen l ↔ a ∈ l ∧ a ∉ seen := by
  intro l
  induction l with
  | nil =>
    intro seen
    simp [dedupFirstAux]
  | cons x xs ih =>
    intro seen
    unfold dedupFirstAux
    by_cases hx : x ∈ seen
    · rw [if_pos hx, ih]
      constructor
      · rintro ⟨h1, h2⟩
        exact ⟨List.mem_cons_of_mem _ h1, h2⟩
      · rintro ⟨h1, h2⟩
        rcases List.mem_cons.mp h1 with rfl | h
        · exact absurd hx h2
        · exact ⟨h, h2⟩
    · rw [if_neg hx]
      constructor
      · intro h
        rcases List.mem_cons.mp h with rfl | h
        · exact ⟨List.mem_cons_self _ _, hx⟩
        · obtain ⟨h1, h2⟩ := (ih (x :: seen)).mp h
          exact ⟨List.mem_cons_of_mem _ h1, fun hc => h2 (List.mem_cons_of_mem _ hc)⟩
      · rintro ⟨h1, h2⟩
        rcases List.mem_cons.mp h1 with rfl | h
        · exact List.mem_cons_self _ _
        · by_cases hax : a = x
          · subst hax
            exact List.mem_cons_self _ _
          · refine List.mem_cons_of_mem _ ((ih (x :: seen)).mpr ⟨h, fun hc => ?_⟩)
            rcases List.mem_cons.mp hc with h3 | h3
            · exact hax h3
            · exact h2 h3

theorem mem_dedupFirst {α : Type} [DecidableEq α] (a : α) (l : List α) :
    a ∈ dedupFirst l ↔ a ∈ l := by
  rw [dedupFirst, mem_dedupFirstAux]
  simp

theorem occursStandalone_iff {a s : List Char} (ha : wordish a) :
    occursStandalone a s = true ↔ ∃ j, standaloneAt a s j = true := by
  unfold occursStandalone
  rw [List.any_eq_true]
  constructor
  · rintro ⟨j, -, hj⟩
    exact ⟨j, hj⟩
  · rintro ⟨j, hj⟩
    refine ⟨j, List.mem_range.mpr ?_, hj⟩
    have h1 := standaloneAt_le_length ha hj
    have h2 : 0 < a.length := List.length_pos.mpr ha.1
    omega

theorem altsOf_of_ne_nil {availableStocks : List (List Char)}
    (hne : availableStocks ≠ []) : altsOf availableStocks = availableStocks := by
  unfold altsOf
  rw [if_neg]
  intro h
  exact hne (List.isEmpty_iff.mp h)

theorem mem_stockMatches_iff {eqn : List Char}
    {availableStocks : List (List Char)} (hne : availableStocks ≠ [])
    (hw : ∀ x ∈ availableStocks, wordish x) (a : List Char) :
    a ∈ stockMatches eqn availableStocks ↔
      a ∈ availableStocks ∧ occursStandalone a eqn = true := by
  unfold stockMatches
  rw [altsOf_of_ne_nil hne, scanStocksFrom_mem hw a (eqn.length + 2) 0 (by omega)]
  constructor
  · rintro ⟨j, -, hma, hsa⟩
    exact ⟨hma, (occursStandalone_iff (hw a hma)).mpr ⟨j, hsa⟩⟩
  · rintro ⟨hma, hocc⟩
    obtain ⟨j, hj⟩ := (occursStandalone_iff (hw a hma)).mp hocc
    exact ⟨j, Nat.zero_le j, hma, hj⟩

theorem paramMatchAt_paramRefAt {s : List Char} {i : Nat}
    {name : List Char} {n : Nat}
    (h : paramMatchAt s i = some (name, n)) : paramRefAt name s i := by
  unfold paramMatchAt at h
  split at h
  case h_2 => exact absurd h (by simp)
  case h_1 cp cb cq rest heq =>
    split at h
    case isFalse => exact absurd h (by simp)
    case isTrue hc =>
      simp only [] at h
      split at h
      case h_2 => exact absurd h (by simp)
      case h_1 cq2 cr tail heq2 =>
        split at h
        case isFalse => exact absurd h (by simp)
        case isTrue hc2 =>
          injection h with h
          have hname : name = rest.takeWhile (fun c => !isQuote c) :=
            (congrArg Prod.fst h).symm
          subst hname
          simp only [Bool.and_eq_true, decide_eq_true_eq] at hc hc2
          obtain ⟨⟨hcp, hcb⟩, hcq⟩ := hc
          obtain ⟨⟨hrun, hcq2⟩, hcr⟩ := hc2
          subst hcp
          subst hcb
          subst hcr
          refine ⟨?_, ?_, cq, cq2, hcq, hcq2, ?_⟩
          · intro hnil
            rw [hnil] at hrun
            simp at hrun
          · intro c hc
            have := List.mem_takeWhile_imp hc
            simpa using this
          · have hsplit : (rest.takeWhile fun c => !isQuote c) ++
                rest.drop (rest.takeWhile fun c => !isQuote c).length = rest :=
              List.prefix_iff_eq_append.mp (List.takeWhile_prefix _)
            rw [heq2] at hsplit
            rw [List.isPrefixOf_iff_prefix]
            refine ⟨tail, ?_⟩
            rw [heq]
            conv_rhs => rw [← hsplit]
            simp [List.append_assoc]

theorem scanParamsFrom_sound {s : List Char} (name : List Char) :
    ∀ (fuel i : Nat), name ∈ scanParamsFrom s fuel i →
      ∃ j, paramRefAt name s j := by
  intro fuel
  induction fuel with
  | zero =>
    intro i h
    simp [scanParamsFrom] at h
  | succ fuel ih =>
    intro i h
    rw [scanParamsFrom] at h
    by_cases hi : i ≤ s.length
    · rw [if_pos hi] at h
      cases hm : paramMatchAt s i with
      | none =>
        rw [hm] at h
        exact ih _ h
      | some pr =>
        rw [hm] at h
        rcases List.mem_cons.mp h with rfl | h2
        · have hm2 : paramMatchAt s i = some (pr.1, pr.2) := by rw [hm]
          exact ⟨i, paramMatchAt_paramRefAt hm2⟩
        · exact ih _ h2
    · rw [if_neg hi] at h
      simp at h

theorem mem_paramMatches_sound {eqn name : List Char}
    (h : name ∈ paramMatches eqn) : ∃ j, paramRefAt name eqn j :=
  scanParamsFrom_sound name _ _ h

/-- The parameter scan is sound but not complete for textual
references: in `p['xp[']z']` the name `]z` is textually referenced in
bracket form at index 4, yet the exec-loop scan — which resumes after
each match — records only `xp[`.  Recorded names are therefore a
subset, not the exact set, of the textually referenced names. -/
theorem paramMatches_not_complete :
    paramMatches cexPNested = [['x', 'p', lbrack]] ∧
    paramRefAt [rbrack, 'z'] cexPNested 4 ∧
    [rbrack, 'z'] ∉ paramMatches cexPNested := by
  refine ⟨by decide, ⟨by decide, by decide, quote1, quote1, by decide, by decide, by decide⟩, by decide⟩

end EquationEditor

/-- C1 (counterexample): the extraction is not exact as claimed.  At
the expression `p['x']` with an empty known-stock set and an empty
known-parameter set, the claim forces both dependency components to be
empty, but the extraction returns the spurious stock entry `""` (the
joined-alternatives regex `\b()\b` matches the empty string at a word
boundary) and records the parameter name `x` although it is not a
known parameter. -/
theorem dependencies_empty_stocklist_counterexample :
    (EquationEditor.dependenciesMemo EquationEditor.cexPX [] []).stocks = [[]] ∧
    ([] : List Char) ∉ ([] : List (List Char)) ∧
    (EquationEditor.dependenciesMemo EquationEditor.cexPX [] []).parameters = [['x']] ∧
    ['x'] ∉ ([] : List (List Char)) := by
  decide

/-- C1 (amended): for every expression text and every non-empty set of
known stock symbols (each a non-empty word-character token), the stocks
component of the extracted dependencies is exactly the set of known
stock symbols textually present as standalone (word-bounded) tokens in
the expression; and every name the parameters component records is
textually referenced in the expression in the namespaced bracket form
`p['name']`/`p["name"]`, irrespective of the known-parameters set (a
one-way containment: the left-to-right scan consumes overlapping
references, see `EquationEditor.paramMatches_not_complete`). -/
theorem dependencies_extraction_amended
    (eqn : List Char) (availableStocks availableParameters : List (List Char))
    (hne : availableStocks ≠ [])
    (hw : ∀ x ∈ availableStocks, EquationEditor.wordish x) :
    (∀ a, a ∈ (EquationEditor.dependenciesMemo eqn availableStocks
        availableParameters).stocks ↔
      a ∈ availableStocks ∧ EquationEditor.occursStandalone a eqn = true) ∧
    (∀ name ∈ (EquationEditor.dependenciesMemo eqn availableStocks
        availableParameters).parameters,
      ∃ j, EquationEditor.paramRefAt name eqn j) := by
  constructor
  · intro a
    show a ∈ EquationEditor.dedupFirst
      (EquationEditor.stockMatches eqn availableStocks) ↔ _
    rw [EquationEditor.mem_dedupFirst,
      EquationEditor.mem_stockMatches_iff hne hw]
  · intro name h
    have h2 : name ∈ EquationEditor.dedupFirst
        (EquationEditor.paramMatches eqn) := h
    rw [EquationEditor.mem_dedupFirst] at h2
    exact EquationEditor.mem_paramMatches_sound h2

/-- Witness: the amended C1 property, instantiated at the expression
`0.6*S` with known stocks `{S}`. -/
theorem dependencies_extraction_amended_witness :
    ['S'] ∈ (EquationEditor.dependenciesMemo EquationEditor.sampleExpr
        [['S']] []).stocks ↔
      ['S'] ∈ [[('S' : Char)]] ∧
        EquationEditor.occursStandalone ['S'] EquationEditor.sampleExpr = true :=
  (dependencies_extraction_amended EquationEditor.sampleExpr [['S']] []
    (by decide)
    (by
      intro x hx
      simp only [List.mem_singleton] at hx
      subst hx
      exact ⟨by decide, by decide⟩)).1 ['S']

/-- C2 (counterexample): a parameter reference whose name is not in
the known-parameters set is still accepted: at `p['foo']` with no
known parameters, `foo` is recorded in `dependencies.parameters`. -/
theorem parameters_unknown_recorded_counterexample :
    ['f', 'o', 'o'] ∈
      (EquationEditor.dependenciesMemo EquationEditor.cexPFoo [] []).parameters ∧
    ['f', 'o', 'o'] ∉ ([] : List (List Char)) := by
  decide

/-- C2 (amended): every parameter reference the extractor records is
written in the namespaced bracket-lookup form `p['name']`/`p["name"]`
(the component's equivalent of `p.<name>`) and is textually present in
the expression; no known-parameter check is applied, so unknown names
are recorded as well. -/
theorem parameters_namespaced_form_sound
    (eqn : List Char) (availableStocks availableParameters : List (List Char))
    (name : List Char)
    (h : name ∈ (EquationEditor.dependenciesMemo eqn availableStocks
        availableParameters).parameters) :
    ∃ j, EquationEditor.paramRefAt name eqn j := by
  have h2 : name ∈ EquationEditor.dedupFirst
      (EquationEditor.paramMatches eqn) := h
  rw [EquationEditor.mem_dedupFirst] at h2
  exact EquationEditor.mem_paramMatches_sound h2

/-- Witness: the C2 soundness property at the expression `p['kT']`,
whose recorded dependency `kT` is indeed a textual namespaced
reference. -/
theorem parameters_namespaced_form_sound_witness :
    ∃ j, EquationEditor.paramRefAt ['k', 'T'] EquationEditor.cexPkT j :=
  parameters_namespaced_form_sound EquationEditor.cexPkT [] [] ['k', 'T']
    (by decide)

/-- C3: dependency extraction is deterministic and input-value based —
two runs on equal expression texts and equal known-symbol sets return
equal dependencies; the embedding as a pure function of the text and
the known-symbol lists reflects that the source computation neither
performs I/O nor mutates its inputs. -/
theorem dependencies_deterministic
    (t1 t2 : List Char) (s1 s2 p1 p2 : List (List Char))
    (ht : t1 = t2) (hs : s1 = s2) (hp : p1 = p2) :
    EquationEditor.dependenciesMemo t1 s1 p1 =
      EquationEditor.dependenciesMemo t2 s2 p2 := by
  subst ht
  subst hs
  subst hp
  rfl

/-- Witness: two runs on the expression `p['x']` with known stocks
`{S}` agree. -/
theorem dependencies_deterministic_witness :
    EquationEditor.dependenciesMemo EquationEditor.cexPX [['S']] [] =
      EquationEditor.dependenciesMemo EquationEditor.cexPX [['S']] [] :=
  dependencies_deterministic _ _ _ _ _ _ rfl rfl rfl

/-- C4: removal of a draft change by index prior to merge returns
normally exactly when the backend reports success (the index names a
change of the draft), and otherwise raises the structured
`Failed to remove change` error — never silently succeeding. -/
theorem remove_change_ok_iff (d : DraftsApi.Draft) (index : Nat) :
    (DraftsApi.removeChangeFromDraft (DraftsApi.backendRemoveResponse d index) =
        Except.ok () ↔ (DraftsApi.removeChange d index).isSome = true) ∧
    (DraftsApi.removeChange d index = none →
      DraftsApi.removeChangeFromDraft (DraftsApi.backendRemoveResponse d index) =
        Except.error ("Failed to remove change: " ++ "Not Found")) := by
  by_cases h : index < d.changes.length <;>
    simp [DraftsApi.removeChangeFromDraft, DraftsApi.backendRemoveResponse,
      DraftsApi.removeChange, h]

/-- Witness: C4 at a concrete one-change draft and index 0. -/
theorem remove_change_ok_iff_witness :
    (DraftsApi.removeChangeFromDraft
        (DraftsApi.backendRemoveResponse DraftsApi.sampleDraft 0) =
        Except.ok () ↔
      (DraftsApi.removeChange DraftsApi.sampleDraft 0).isSome = true) ∧
    (DraftsApi.removeChange DraftsApi.sampleDraft 0 = none →
      DraftsApi.removeChangeFromDraft
          (DraftsApi.backendRemoveResponse DraftsApi.sampleDraft 0) =
        Except.error ("Failed to remove change: " ++ "Not Found")) :=
  remove_change_ok_iff DraftsApi.sampleDraft 0

/-- C5: the merge is continue-on-error at operation granularity — for
a draft of three operations whose second updates a state symbol absent
from the working model while the first and third apply cleanly, the
merge applies 2 changes, records exactly one skip naming index 1 and
the missing-state reason, and returns the still-valid effective model
reflecting the first and third operations. -/
theorem merge_continue_on_error
    (base m1 m3 : MergeEngine.Model) (op1 op3 : MergeEngine.ChangeOp)
    (sym : String) (v : ℚ)
    (h1 : MergeEngine.applyOp base op1 = Except.ok m1)
    (h2 : MergeEngine.stateExists m1 sym = false)
    (h3 : MergeEngine.applyOp m1 op3 = Except.ok m3)
    (h4 : MergeEngine.modelValid m3 = true) :
    MergeEngine.merge base [op1, MergeEngine.ChangeOp.updateState sym v, op3] =
      { effective_model := m3, applied_changes := 2,
        skipped := [(1, "missing state " ++ sym)], valid := true } := by
  have hup : MergeEngine.applyOp m1 (MergeEngine.ChangeOp.updateState sym v) =
      Except.error ("missing state " ++ sym) := by
    simp only [MergeEngine.applyOp, h2]
    simp
  simp [MergeEngine.merge, MergeEngine.applyOps, h1, hup, h3, h4]

/-- Witness: C5 at the empty base with `add_state T`, an update of the
absent state `Z`, and `add_parameter kT`. -/
theorem merge_continue_on_error_witness :
    MergeEngine.merge MergeEngine.emptyModel
        [MergeEngine.ChangeOp.addState MergeEngine.stT,
         MergeEngine.ChangeOp.updateState "Z" (1/2),
         MergeEngine.ChangeOp.addParameter MergeEngine.pkT] =
      { effective_model := MergeEngine.modelTkT, applied_changes := 2,
        skipped := [(1, "missing state " ++ "Z")], valid := true } :=
  merge_continue_on_error MergeEngine.emptyModel MergeEngine.modelT
    MergeEngine.modelTkT (MergeEngine.ChangeOp.addState MergeEngine.stT)
    (MergeEngine.ChangeOp.addParameter MergeEngine.pkT) "Z" (1/2)
    rfl rfl rfl rfl

/-- C6: the evaluator's clamp satisfies
`clamp(x, lo, hi) = min(max(x, lo), hi)` whenever its arguments
evaluate, and evaluating `clamp(x, 0, 1)` at
`x ∈ {-1, 0, 0.5, 1, 2}` yields `{0, 0, 0.5, 1, 1}`. -/
theorem evaluate_clamp_spec
    (sb pb : String → Option ℚ) (ex elo ehi : Evaluator.Expr) (x lo hi : ℚ)
    (hx : Evaluator.evaluate sb pb ex = Except.ok x)
    (hlo : Evaluator.evaluate sb pb elo = Except.ok lo)
    (hhi : Evaluator.evaluate sb pb ehi = Except.ok hi) :
    Evaluator.evaluate sb pb (Evaluator.Expr.clamp ex elo ehi) =
      Except.ok (min (max x lo) hi) ∧
    Evaluator.clampRoundTrip =
      [Except.ok 0, Except.ok 0, Except.ok (1/2), Except.ok 1, Except.ok 1] := by
  constructor
  · simp only [Evaluator.evaluate, hx, hlo, hhi, except_ok_bind, except_pure_eq]
  · norm_num [Evaluator.clampRoundTrip, Evaluator.evaluate, Evaluator.xBinding,
      Evaluator.emptyBindings, except_ok_bind, except_pure_eq, min_def, max_def]

/-- Witness: C6 with `clamp(2, 0, 1)` built from literals. -/
theorem evaluate_clamp_spec_witness :
    Evaluator.evaluate Evaluator.emptyBindings Evaluator.emptyBindings
        (Evaluator.Expr.clamp (Evaluator.Expr.num 2) (Evaluator.Expr.num 0)
          (Evaluator.Expr.num 1)) =
      Except.ok (min (max 2 0) 1) ∧
    Evaluator.clampRoundTrip =
      [Except.ok 0, Except.ok 0, Except.ok (1/2), Except.ok 1, Except.ok 1] :=
  evaluate_clamp_spec Evaluator.emptyBindings Evaluator.emptyBindings
    (Evaluator.Expr.num 2) (Evaluator.Expr.num 0) (Evaluator.Expr.num 1)
    2 0 1 rfl rfl rfl

/-- C7: the node-edit save flow rejects out-of-bounds initial values
and blank names with a reported validation error and does not invoke
`onSave`; for in-bounds input with a non-blank name it invokes
`onSave` with the entered values. -/
theorem handleSave_validation
    (nodeId name description businessMeaning category : String) (initial : ℚ) :
    ((initial < 0 ∨ initial > 1 ∨ name.trim = "") →
      ∃ errs, NodeEditModal.handleSave nodeId name description businessMeaning
          initial category = NodeEditModal.SaveOutcome.rejected errs ∧
        errs ≠ []) ∧
    ((0 ≤ initial ∧ initial ≤ 1 ∧ name.trim ≠ "") →
      NodeEditModal.handleSave nodeId name description businessMeaning
          initial category =
        NodeEditModal.SaveOutcome.saved nodeId
          { label := name, description := description,
            business_meaning := businessMeaning, initial := initial,
            category := category }) := by
  constructor
  · intro h
    by_cases hn : name.trim = "" <;> by_cases hb : initial < 0 ∨ initial > 1
    · exact ⟨["Name is required", "Initial value must be between 0 and 1"],
        by simp [NodeEditModal.handleSave,
          NodeEditModal.validationErrors, hn, hb], by simp⟩
    · exact ⟨["Name is required"],
        by simp [NodeEditModal.handleSave,
          NodeEditModal.validationErrors, hn, hb], by simp⟩
    · exact ⟨["Initial value must be between 0 and 1"],
        by simp [NodeEditModal.handleSave,
          NodeEditModal.validationErrors, hn, hb], by simp⟩
    · exfalso
      rcases h with h | h | h
      · exact hb (Or.inl h)
      · exact hb (Or.inr h)
      · exact hn h
  · rintro ⟨hlo, hhi, hn⟩
    have hb : ¬(initial < 0 ∨ initial > 1) := by
      rintro (h | h)
      · exact absurd hlo (not_le.mpr h)
      · exact absurd hhi (not_le.mpr h)
    simp [NodeEditModal.handleSave, NodeEditModal.validationErrors, hn, hb]

/-- Witness: C7 at the out-of-bounds initial value 2 with a non-blank
name. -/
theorem handleSave_validation_witness :
    ∃ errs, NodeEditModal.handleSave "T" "Targeting" "" "" 2 "capability" =
        NodeEditModal.SaveOutcome.rejected errs ∧ errs ≠ [] :=
  (handleSave_validation "T" "Targeting" "" "" "capability" 2).1
    (Or.inr (Or.inl (by norm_num)))

/-- C8: when a change operation is produced while no draft is active,
`addChange` starts a new (empty) draft and returns without appending
the triggering change — the change ends up in no draft's change list
and in no undo stack, and no error is reported. -/
theorem addChange_without_active_draft
    (st : GraphEditor.EditorState) (change : DraftsApi.PatchChange)
    (d : DraftsApi.Draft) (backendOk : Bool)
    (h0 : st.draftState.draft = none) (hd : d.changes = []) :
    (GraphEditor.addChange st change (some d) backendOk).draftState.active = true ∧
    (GraphEditor.addChange st change (some d) backendOk).draftState.draft = some d ∧
    (GraphEditor.addChange st change (some d) backendOk).draftState.changes = [] ∧
    change ∉ d.changes ∧
    (GraphEditor.addChange st change (some d) backendOk).undoStack = st.undoStack := by
  unfold GraphEditor.addChange
  rw [h0]
  unfold GraphEditor.startDraft
  simp [hd]

/-- Witness: C8 at the initial editor state and a concrete edit. -/
theorem addChange_without_active_draft_witness :
    (GraphEditor.addChange GraphEditor.initialEditorState
        GraphEditor.sampleChange (some DraftsApi.emptyDraft) true).draftState.active = true ∧
    (GraphEditor.addChange GraphEditor.initialEditorState
        GraphEditor.sampleChange (some DraftsApi.emptyDraft) true).draftState.draft =
      some DraftsApi.emptyDraft ∧
    (GraphEditor.addChange GraphEditor.initialEditorState
        GraphEditor.sampleChange (some DraftsApi.emptyDraft) true).draftState.changes = [] ∧
    GraphEditor.sampleChange ∉ DraftsApi.emptyDraft.changes ∧
    (GraphEditor.addChange GraphEditor.initialEditorState
        GraphEditor.sampleChange (some DraftsApi.emptyDraft) true).undoStack =
      GraphEditor.initialEditorState.undoStack :=
  addChange_without_active_draft GraphEditor.initialEditorState
    GraphEditor.sampleChange DraftsApi.emptyDraft true rfl rfl

/-- C9: `generateInsights` returns at most three insights (the
computed list is truncated to its first three elements), and the empty
list for a null result. -/
theorem generateInsights_at_most_three
    (result : Option InsightEngine.SimulationResult) (scenarioName : String) :
    (InsightEngine.generateInsights result scenarioName).length ≤ 3 ∧
    InsightEngine.generateInsights none scenarioName = [] := by
  constructor
  · cases result with
    | none => simp [InsightEngine.generateInsights]
    | some r =>
      simp only [InsightEngine.generateInsights]
      exact List.length_take_le 3 _
  · rfl

namespace AppMain

theorem recordGet_map {α β : Type} (f : α → β) (l : List (String × α)) (k : String) :
    recordGet (l.map (fun kv => (kv.1, f kv.2))) k = (recordGet l k).map f := by
  induction l with
  | nil => rfl
  | cons kv rest ih =>
    unfold recordGet
    unfold recordGet at ih
    simp only [List.map_cons]
    by_cases h : (kv.1 == k) = true
    · simp only [List.find?]
      simp [h]
    · simp only [Bool.not_eq_true] at h
      simp only [List.find?]
      simp only [h]
      exact ih

end AppMain

/-- C10: scenario selection resolves every binding by
override-then-default precedence — each configured parameter maps to
its scenario override when present and its configured default
otherwise, and each configured state maps to its scenario initial
override when present and its configured initial value otherwise. -/
theorem loadScenarioValues_precedence
    (scenario : AppMain.Scenario) (cfg : AppMain.FullConfig) (k : String) :
    (∀ p, AppMain.recordGet cfg.parameters k = some p →
      (AppMain.loadScenarioValues scenario cfg).1 k =
        some ((AppMain.recordGet scenario.param_overrides k).getD p.value)) ∧
    (∀ st, AppMain.recordGet cfg.states k = some st →
      (AppMain.loadScenarioValues scenario cfg).2 k =
        some ((AppMain.recordGet scenario.initial_overrides k).getD st.initial)) := by
  constructor
  · intro p hp
    show AppMain.spread (AppMain.defaultParams cfg) scenario.param_overrides k = _
    unfold AppMain.spread
    cases ho : AppMain.recordGet scenario.param_overrides k with
    | none =>
      simp only [Option.getD_none]
      unfold AppMain.defaultParams
      rw [AppMain.recordGet_map, hp]
      rfl
    | some v => rfl
  · intro st hst
    show AppMain.spread (AppMain.defaultInitials cfg) scenario.initial_overrides k = _
    unfold AppMain.spread
    cases ho : AppMain.recordGet scenario.initial_overrides k with
    | none =>
      simp only [Option.getD_none]
      unfold AppMain.defaultInitials
      rw [AppMain.recordGet_map, hst]
      rfl
    | some v => rfl

/-- Witness: C10 at the sample configuration — the overridden
parameter `kT` resolves to the override, the state `T` to its
configured initial value. -/
theorem loadScenarioValues_precedence_witness :
    (AppMain.loadScenarioValues AppMain.sampleScenario AppMain.sampleConfig).1 "kT" =
      some ((AppMain.recordGet AppMain.sampleScenario.param_overrides "kT").getD (7/10)) ∧
    (AppMain.loadScenarioValues AppMain.sampleScenario AppMain.sampleConfig).2 "T" =
      some ((AppMain.recordGet AppMain.sampleScenario.initial_overrides "T").getD (3/10)) :=
  ⟨(loadScenarioValues_precedence AppMain.sampleScenario AppMain.sampleConfig "kT").1
      { value := 7/10 } rfl,
   (loadScenarioValues_precedence AppMain.sampleScenario AppMain.sampleConfig "T").2
      { initial := 3/10 } rfl⟩

end AeroDyn
